import Mathlib

/-!
Verification development for the GPX conversion core of `healthTools`
(`src/utils/gpx.py`).  The Python module parses a GPX XML track document and
converts it either to a RunKeeper-style JSON activity record
(`convert_gpx_to_rkjson`) or to a GeoJSON FeatureCollection
(`convert_gpx_to_geojson`), with `enrich_data` filling missing record fields
from caller overrides and built-in defaults.

The embedding works on the document *after* XML parsing: a `GpxDoc` records
the results of the XPath queries the source performs
(`//ns:metadata//ns:time`, `//ns:trk//ns:name`, `//ns:trk//ns:trkseg//ns:trkpt`),
with attribute/text parsing failures represented by `none`.  Python dicts are
association lists (`Dict`) with Python's assignment semantics (update in
place when the key exists, append otherwise); Python exceptions become
`Except GpxError`.  Timestamps are instants in microseconds since the epoch
(`dateutil` parses to microsecond precision); `timedelta.total_seconds()`
followed by `int(...)` is exact rational division truncated towards zero,
i.e. `Int.tdiv` of the microsecond difference by `1000000`.
-/

namespace HealthTools

/-- JSON-like values as built by the Python module.  `vTime` models a
datetime instant (microseconds since the epoch, UTC); the human formatting
`astimezone(tz.tzlocal()).strftime('%a, %d %b %Y %H:%M:%S')` is
environment-dependent (local timezone) and is modelled as the instant
itself. -/
inductive Value where
  | vStr (s : String)
  | vNum (q : ℚ)
  | vInt (n : ℤ)
  | vBool (b : Bool)
  | vTime (t : ℤ)
  | vArr (elems : List Value)
  | vObj (fields : List (String × Value))

/-- A Python dict with string keys, as an insertion-ordered association
list with unique keys (Python dicts cannot hold a key twice). -/
abbrev Dict := List (String × Value)

/-- Python `key in d`. -/
def dmem (k : String) : Dict → Bool
  | [] => false
  | (k', _) :: rest => if k = k' then true else dmem k rest

/-- Python `d[key]` as a partial lookup (first binding of the key). -/
def dget (k : String) : Dict → Option Value
  | [] => none
  | (k', v) :: rest => if k = k' then some v else dget k rest

/-- Python `d[key] = v`: replace the value in place when the key exists,
append the binding otherwise. -/
def dset (k : String) (v : Value) : Dict → Dict
  | [] => [(k, v)]
  | (k', v') :: rest => if k = k' then (k', v) :: rest else (k', v') :: dset k v rest

/-- The keys of a dict, in insertion order (Python `for key in d`). -/
def keysOf (d : Dict) : List String := d.map Prod.fst

/-- Failures of the conversion core.  The spec's taxonomy
(`MissingStartTimeError`, `MalformedPointError`, `TimestampParseError`,
`MissingTrackNameError`) plus the `KeyError` Python raises when
`DEFAULT_DATA[data_type]` has no entry for the requested format type.
In the source, a missing start time surfaces as an unguarded
`NoneType`/`IndexError` failure; the embedding represents every failure as
its typed error. -/
inductive GpxError where
  | missingStartTime
  | malformedPoint
  | timestampParse
  | missingTrackName
  | keyError (key : String)
deriving DecidableEq

/-- A `<trkpt>` element as the source reads it: the `lat`/`lon` attributes
put through `float(...)` (`none` when the attribute is missing or not
numeric), the texts of its `ele` descendants put through `float(...)`, and
the texts of its `time` descendants put through `dateutil`'s `parse`
(`none` when unparseable), each list in document order. -/
structure Trkpt where
  lat : Option ℚ
  lon : Option ℚ
  eles : List (Option ℚ)
  times : List (Option ℤ)
deriving DecidableEq

/-- A parsed GPX track document, as the results of the XPath queries the
source performs: `//ns:metadata//ns:time` texts (parsed), `//ns:trk//ns:name`
texts, and `//ns:trk//ns:trkseg//ns:trkpt` elements, each in document
order. -/
structure GpxDoc where
  metadataTimes : List (Option ℤ)
  trkNames : List String
  points : List Trkpt
deriving DecidableEq

/-- The `//ns:time` query over the whole document: in a GPX 1.1 track
document the `metadata` element precedes the `trk` element, so the time
elements appear with the metadata ones first, then each track point's, in
document order. -/
def docTimes (d : GpxDoc) : List (Option ℤ) :=
  d.metadataTimes ++ (d.points.map Trkpt.times).flatten

def KEY_TYPE : String := "type"
def KEY_EQUIPMENT : String := "equipment"
def KEY_NOTES : String := "notes"
def KEY_PATH : String := "path"
def KEY_STARTTIME : String := "start_time"
def KEY_LAT : String := "latitude"
def KEY_LON : String := "longitude"
def KEY_TIMESTAMP : String := "timestamp"
def KEY_ALT : String := "altitude"
def KEY_FB : String := "post_to_facebook"
def KEY_TWIT : String := "post_to_twitter"
def KEY_FEATURES : String := "features"
def KEY_NAME : String := "name"
def KEY_PROP : String := "properties"
def KEY_TIME : String := "time"
def KEY_GEO : String := "geometry"
def KEY_COORDS : String := "coordinates"

def TYPE_RK : String := "runkeeper"
def TYPE_GEOJSON : String := "geojson"

def OUTPUT_TYPES : List String := [TYPE_RK, TYPE_GEOJSON]

/-- The built-in defaults for the RunKeeper format (`DEFAULT_DATA[TYPE_RK]`). -/
def RK_DEFAULTS : Dict :=
  [(KEY_TYPE, .vStr "Running"),
   (KEY_EQUIPMENT, .vStr "None"),
   (KEY_NOTES, .vStr ""),
   (KEY_FB, .vBool false),
   (KEY_TWIT, .vBool false)]

/-- `DEFAULT_DATA`: a table keyed by format type; only the RunKeeper entry
exists in the source. -/
def DEFAULT_DATA : List (String × Dict) := [(TYPE_RK, RK_DEFAULTS)]

/-- Lookup in `DEFAULT_DATA` (Python `DEFAULT_DATA[data_type]`, which raises
`KeyError` when absent; the caller of this embedding inspects the `Option`). -/
def lookupFmt (k : String) : List (String × Dict) → Option Dict
  | [] => none
  | (k', d) :: rest => if k = k' then some d else lookupFmt k rest

/-- One fill loop of `enrich_data`: `for key in src: if not key in jdata:
jdata[key] = src[key]` — iterate the source dict's keys, copying the value
of each key not already present on `jdata`.  The inner `none` branch is
unreachable when `ks = keysOf src` (every key of a dict has a value). -/
def enrichKeys (src : Dict) (jdata : Dict) : List String → Dict
  | [] => jdata
  | k :: rest =>
    if dmem k jdata then enrichKeys src jdata rest
    else
      match dget k src with
      | some v => enrichKeys src (dset k v jdata) rest
      | none => enrichKeys src jdata rest

/-- `enrich_data(jdata, additional_data, data_type)` (gpx.py lines 69-75):
first fill from the caller-supplied overrides, then from
`DEFAULT_DATA[data_type]`; the latter lookup raises `KeyError` for a format
type with no default entry. -/
def enrich_data (jdata additional_data : Dict) (data_type : String) :
    Except GpxError Dict :=
  let jdata := enrichKeys additional_data jdata (keysOf additional_data)
  match lookupFmt data_type DEFAULT_DATA with
  | none => .error (.keyError data_type)
  | some defaults => .ok (enrichKeys defaults jdata (keysOf defaults))

/-- Start-time resolution of `convert_gpx_to_rkjson` (gpx.py lines 83-94):
the first `//ns:metadata//ns:time` element if any, else the first `//ns:time`
element anywhere, else failure (in the source `start_time` stays `None` and
line 94 dereferences it). -/
def resolveStartTime (tree : GpxDoc) : Except GpxError ℤ :=
  match tree.metadataTimes with
  | some t :: _ => .ok t
  | none :: _ => .error .timestampParse
  | [] =>
    match docTimes tree with
    | some t :: _ => .ok t
    | none :: _ => .error .timestampParse
    | [] => .error .missingStartTime

/-- `float(point.get(attr))`: fails when the attribute is missing
(`TypeError`) or not numeric (`ValueError`); the spec calls this
`MalformedPointError`. -/
def reqAttr : Option ℚ → Except GpxError ℚ
  | some q => .ok q
  | none => .error .malformedPoint

/-- `for element in point.iter(ns + 'ele'): path_point[KEY_ALT] =
float(element.text)` — each elevation child overwrites the altitude field,
so the last one wins. -/
def eleLoop (pp : Dict) : List (Option ℚ) → Except GpxError Dict
  | [] => .ok pp
  | none :: _ => .error .malformedPoint
  | some e :: rest => eleLoop (dset KEY_ALT (.vNum e) pp) rest

/-- `for element in point.iter(ns + 'time'): ts = parse(element.text);
path_point[KEY_TIMESTAMP] = int((ts - start_time).total_seconds())` — the
elapsed value is the microsecond difference divided by 10^6 truncated
towards zero (Python `int()` on the exact `total_seconds()` value). -/
def timeLoop (start_time : ℤ) (pp : Dict) : List (Option ℤ) →
    Except GpxError Dict
  | [] => .ok pp
  | none :: _ => .error .timestampParse
  | some ts :: rest =>
    timeLoop start_time
      (dset KEY_TIMESTAMP (.vInt (Int.tdiv (ts - start_time) 1000000)) pp) rest

/-- The per-point dict built by the body of the `trkpt` loop of
`convert_gpx_to_rkjson` (gpx.py lines 97-108): latitude, longitude, the
constant source type `'gps'`, then the elevation and time children. -/
def buildPoint (start_time : ℤ) (point : Trkpt) : Except GpxError Dict := do
  let lat ← reqAttr point.lat
  let lon ← reqAttr point.lon
  let pp : Dict :=
    dset KEY_TYPE (.vStr "gps") (dset KEY_LON (.vNum lon) (dset KEY_LAT (.vNum lat) []))
  let pp ← eleLoop pp point.eles
  timeLoop start_time pp point.times

/-- `jdata[KEY_PATH].append(path_point)`: the path entry always holds an
array in the source, so the fallthrough case is unreachable. -/
def appendPath (jdata : Dict) (pp : Dict) : Dict :=
  match dget KEY_PATH jdata with
  | some (.vArr l) => dset KEY_PATH (.vArr (l ++ [.vObj pp])) jdata
  | _ => jdata

/-- The `trkpt` loop of `convert_gpx_to_rkjson` (gpx.py lines 96-112):
build each point, append it to the path, and (re)apply `enrich_data` inside
every iteration. -/
def rkLoop (additional_data : Dict) (start_time : ℤ) :
    Dict → List Trkpt → Except GpxError Dict
  | jdata, [] => .ok jdata
  | jdata, point :: rest => do
    let pp ← buildPoint start_time point
    let jdata := appendPath jdata pp
    let jdata ← enrich_data jdata additional_data TYPE_RK
    rkLoop additional_data start_time jdata rest

/-- `convert_gpx_to_rkjson(data, additional_data={})` (gpx.py lines 77-114). -/
def convert_gpx_to_rkjson (tree : GpxDoc) (additional_data : Dict := []) :
    Except GpxError Dict := do
  let jdata : Dict := dset KEY_PATH (.vArr []) []
  let start_time ← resolveStartTime tree
  let jdata := dset KEY_STARTTIME (.vTime start_time) jdata
  rkLoop additional_data start_time jdata tree.points

/-- The `trkpt` loop of `convert_gpx_to_geojson` (gpx.py lines 134-138):
one `[longitude, latitude]` pair per point, in document order; no altitude
and no time. -/
def geoLoop : List Trkpt → Except GpxError (List Value)
  | [] => .ok []
  | point :: rest => do
    let lon ← reqAttr point.lon
    let lat ← reqAttr point.lat
    let cs ← geoLoop rest
    .ok (.vArr [.vNum lon, .vNum lat] :: cs)

/-- `convert_gpx_to_geojson(data, additional_data={})` (gpx.py lines
116-142).  The track name is read first (line 126, `[0]` on the
`//ns:trk//ns:name` result), then the start time from
`//ns:metadata//ns:time` only — no fallback to other time elements (line
127); both indexings fail on an empty query result. -/
def convert_gpx_to_geojson (tree : GpxDoc) (additional_data : Dict := []) :
    Except GpxError Dict := do
  let _ := additional_data
  let jdata : Dict :=
    dset KEY_FEATURES (.vArr []) (dset KEY_TYPE (.vStr "FeatureCollection") [])
  let name ← match tree.trkNames with
    | n :: _ => Except.ok n
    | [] => Except.error GpxError.missingTrackName
  let start_time ← match tree.metadataTimes with
    | some t :: _ => Except.ok t
    | none :: _ => Except.error GpxError.timestampParse
    | [] => Except.error GpxError.missingStartTime
  let prop : Dict := dset KEY_TIME (.vTime start_time) (dset KEY_NAME (.vStr name) [])
  let coords ← geoLoop tree.points
  let geo : Dict := dset KEY_COORDS (.vArr coords) (dset KEY_TYPE (.vStr "LineString") [])
  let feature : Dict :=
    dset KEY_GEO (.vObj geo) (dset KEY_PROP (.vObj prop) (dset KEY_TYPE (.vStr "Feature") []))
  .ok (dset KEY_FEATURES (.vArr [.vObj feature]) jdata)

/-- Modelled from the spec: the variant of `convert_gpx_to_rkjson` the spec
compares the reference behaviour against, in which enrichment is applied
once after the point loop instead of once per iteration ("an implementer
should confirm via test that a single post-loop enrichment pass produces
identical output"). -/
def rkLoopNoEnrich (start_time : ℤ) : Dict → List Trkpt → Except GpxError Dict
  | jdata, [] => .ok jdata
  | jdata, point :: rest => do
    let pp ← buildPoint start_time point
    rkLoopNoEnrich start_time (appendPath jdata pp) rest

/-- Modelled from the spec: `convert_gpx_to_rkjson` with a single
enrichment pass after the loop (see `rkLoopNoEnrich`). -/
def convert_gpx_to_rkjson_postloop (tree : GpxDoc) (additional_data : Dict := []) :
    Except GpxError Dict := do
  let jdata : Dict := dset KEY_PATH (.vArr []) []
  let start_time ← resolveStartTime tree
  let jdata := dset KEY_STARTTIME (.vTime start_time) jdata
  let jdata ← rkLoopNoEnrich start_time jdata tree.points
  enrich_data jdata additional_data TYPE_RK

/-- Heap-explicit `enrich_data`: the source mutates dicts in place, so this
variant threads the `additional_data` dict through the call and returns its
final state next to the enriched record; every assignment in the source
targets `jdata`, so the translation only ever updates the first component. -/
def enrich_data_heap (jdata additional_data : Dict) (data_type : String) :
    Except GpxError (Dict × Dict) :=
  let jdata := enrichKeys additional_data jdata (keysOf additional_data)
  match lookupFmt data_type DEFAULT_DATA with
  | none => .error (.keyError data_type)
  | some defaults => .ok (enrichKeys defaults jdata (keysOf defaults), additional_data)

/-- Heap-explicit `trkpt` loop of `convert_gpx_to_rkjson`: each iteration's
`enrich_data` call reads the current state of `additional_data` and the next
iteration continues from the state it returns. -/
def rkLoopHeap (start_time : ℤ) :
    Dict × Dict → List Trkpt → Except GpxError (Dict × Dict)
  | st, [] => .ok st
  | (jdata, ad), point :: rest => do
    let pp ← buildPoint start_time point
    let jdata := appendPath jdata pp
    let st ← enrich_data_heap jdata ad TYPE_RK
    rkLoopHeap start_time st rest

/-- Heap-explicit `convert_gpx_to_rkjson`: returns the record together with
the final state of the caller's `additional_data` dict. -/
def convert_gpx_to_rkjson_heap (tree : GpxDoc) (additional_data : Dict := []) :
    Except GpxError (Dict × Dict) := do
  let jdata : Dict := dset KEY_PATH (.vArr []) []
  let start_time ← resolveStartTime tree
  let jdata := dset KEY_STARTTIME (.vTime start_time) jdata
  rkLoopHeap start_time (jdata, additional_data) tree.points

/-- The path array of a converted record (`jdata['path']`). -/
def getPath (jdata : Dict) : List Value :=
  match dget KEY_PATH jdata with
  | some (.vArr l) => l
  | _ => []

/-- The last `time` descendant of a track point, when every time text
parsed; this is the value the source's time loop leaves in the
`timestamp` field. -/
def lastTimeOf (p : Trkpt) : Option ℤ :=
  match p.times.getLast? with
  | some (some t) => some t
  | _ => none

/-- The parsed time of each track point that has one, in document order. -/
def pointTimes (d : GpxDoc) : List ℤ := d.points.filterMap lastTimeOf

/-- The elapsed-seconds value a path entry carries, if any. -/
def tsOfValue : Value → Option ℤ
  | .vObj pp =>
    match dget KEY_TIMESTAMP pp with
    | some (.vInt n) => some n
    | _ => none
  | _ => none

/-- The elapsed-seconds values present on a record's path, in order. -/
def pathTimestamps (jdata : Dict) : List ℤ :=
  (getPath jdata).filterMap tsOfValue

/-- Well-formed track points: both coordinate attributes present and
numeric, and every elevation and time text parseable. -/
def wfPoints (d : GpxDoc) : Prop :=
  ∀ p ∈ d.points, p.lat.isSome ∧ p.lon.isSome ∧
    (∀ e ∈ p.eles, e.isSome) ∧ (∀ t ∈ p.times, t.isSome)

/-- The record of `convert_gpx_to_rkjson` right before the point loop:
the empty path and the resolved start time. -/
def jdInit (start_time : ℤ) : Dict :=
  [(KEY_PATH, .vArr []), (KEY_STARTTIME, .vTime start_time)]

/-- The outcome of one `enrich_data` call for the RunKeeper format (the
only format with a default table entry): overrides first, then the
built-in defaults, each only on absent keys. -/
def enrichRK (jdata additional_data : Dict) : Dict :=
  enrichKeys RK_DEFAULTS
    (enrichKeys additional_data jdata (keysOf additional_data))
    (keysOf RK_DEFAULTS)

/-- Building all path points of a document, stopping at the first failing
point (the order in which the source's loop evaluates them). -/
def buildPoints (start_time : ℤ) : List Trkpt → Except GpxError (List Dict)
  | [] => .ok []
  | p :: rest => do
    let pp ← buildPoint start_time p
    let pps ← buildPoints start_time rest
    .ok (pp :: pps)

/-- The coordinates array of a GeoJSON FeatureCollection
(`jdata['features'][0]['geometry']['coordinates']`). -/
def geoCoords (jdata : Dict) : List Value :=
  match dget KEY_FEATURES jdata with
  | some (.vArr (.vObj feature :: _)) =>
    match dget KEY_GEO feature with
    | some (.vObj geo) =>
      match dget KEY_COORDS geo with
      | some (.vArr cs) => cs
      | _ => []
    | _ => []
  | _ => []

/-- A document with no metadata time but one track-point time: the RunKeeper
conversion falls back to it, the GeoJSON conversion does not. -/
def c1Doc : GpxDoc :=
  { metadataTimes := []
    trkNames := ["run"]
    points := [{ lat := some 0, lon := some 0, eles := [], times := [some 0] }] }

def c1Point : Dict :=
  [(KEY_LAT, .vNum 0), (KEY_LON, .vNum 0), (KEY_TYPE, .vStr "gps"),
   (KEY_TIMESTAMP, .vInt 0)]

def c1Out : Dict :=
  [(KEY_PATH, .vArr [.vObj c1Point]), (KEY_STARTTIME, .vTime 0),
   (KEY_TYPE, .vStr "Running"), (KEY_EQUIPMENT, .vStr "None"),
   (KEY_NOTES, .vStr ""), (KEY_FB, .vBool false), (KEY_TWIT, .vBool false)]

/-- A document whose metadata time is set. -/
def c1wDoc : GpxDoc := { metadataTimes := [some 5], trkNames := [], points := [] }

/-- A document with no time element at all. -/
def c1wEmpty : GpxDoc := { metadataTimes := [], trkNames := [], points := [] }

/-- A document whose single point lies 1.5 seconds before the metadata
start time: truncation and floor of the elapsed seconds differ. -/
def c2Doc : GpxDoc :=
  { metadataTimes := [some 1500000]
    trkNames := []
    points := [{ lat := some 0, lon := some 0, eles := [], times := [some 0] }] }

def c2Point : Dict :=
  [(KEY_LAT, .vNum 0), (KEY_LON, .vNum 0), (KEY_TYPE, .vStr "gps"),
   (KEY_TIMESTAMP, .vInt (-1))]

def c2Out : Dict :=
  [(KEY_PATH, .vArr [.vObj c2Point]), (KEY_STARTTIME, .vTime 1500000),
   (KEY_TYPE, .vStr "Running"), (KEY_EQUIPMENT, .vStr "None"),
   (KEY_NOTES, .vStr ""), (KEY_FB, .vBool false), (KEY_TWIT, .vBool false)]

/-- A document with one timed point (half a second after start) and one
untimed point. -/
def c2wDoc : GpxDoc :=
  { metadataTimes := [some 0]
    trkNames := []
    points := [{ lat := some 1, lon := some 2, eles := [], times := [some 500000] },
               { lat := some 3, lon := some 4, eles := [], times := [] }] }

def c2wPoint1 : Dict :=
  [(KEY_LAT, .vNum 1), (KEY_LON, .vNum 2), (KEY_TYPE, .vStr "gps"),
   (KEY_TIMESTAMP, .vInt 0)]

def c2wPoint2 : Dict :=
  [(KEY_LAT, .vNum 3), (KEY_LON, .vNum 4), (KEY_TYPE, .vStr "gps")]

def c2wOut : Dict :=
  [(KEY_PATH, .vArr [.vObj c2wPoint1, .vObj c2wPoint2]), (KEY_STARTTIME, .vTime 0),
   (KEY_TYPE, .vStr "Running"), (KEY_EQUIPMENT, .vStr "None"),
   (KEY_NOTES, .vStr ""), (KEY_FB, .vBool false), (KEY_TWIT, .vBool false)]

/-- A named one-point document for the GeoJSON axis-order witness. -/
def c3wDoc : GpxDoc :=
  { metadataTimes := [some 0]
    trkNames := ["r"]
    points := [{ lat := some 1, lon := some 2, eles := [], times := [] }] }

def c3wOut : Dict :=
  [(KEY_TYPE, .vStr "FeatureCollection"),
   (KEY_FEATURES, .vArr [.vObj
     [(KEY_TYPE, .vStr "Feature"),
      (KEY_PROP, .vObj [(KEY_NAME, .vStr "r"), (KEY_TIME, .vTime 0)]),
      (KEY_GEO, .vObj [(KEY_TYPE, .vStr "LineString"),
                       (KEY_COORDS, .vArr [.vArr [.vNum 2, .vNum 1]])])]])]

def c4wRecord : Dict := [(KEY_TYPE, .vStr "X")]

def c4wOver : Dict := [(KEY_NOTES, .vStr "n")]

def c4wOut : Dict :=
  [(KEY_TYPE, .vStr "X"), (KEY_NOTES, .vStr "n"), (KEY_EQUIPMENT, .vStr "None"),
   (KEY_FB, .vBool false), (KEY_TWIT, .vBool false)]

/-- A valid document with zero track points: the per-point enrichment loop
never runs. -/
def c5Doc : GpxDoc := { metadataTimes := [some 0], trkNames := [], points := [] }

def c5wDoc : GpxDoc :=
  { metadataTimes := [some 0]
    trkNames := []
    points := [{ lat := some 1, lon := some 1, eles := [], times := [] }] }

def c5wOver : Dict := [(KEY_NOTES, .vStr "x")]

def c5wPoint : Dict :=
  [(KEY_LAT, .vNum 1), (KEY_LON, .vNum 1), (KEY_TYPE, .vStr "gps")]

def c5wOut : Dict :=
  [(KEY_PATH, .vArr [.vObj c5wPoint]), (KEY_STARTTIME, .vTime 0),
   (KEY_NOTES, .vStr "x"), (KEY_TYPE, .vStr "Running"),
   (KEY_EQUIPMENT, .vStr "None"), (KEY_FB, .vBool false), (KEY_TWIT, .vBool false)]

/-- A document with no track name and no time element: both conversions
fail. -/
def c6Doc : GpxDoc := { metadataTimes := [], trkNames := [], points := [] }

/-- A nameless but otherwise fully well-formed document. -/
def c6wDoc : GpxDoc :=
  { metadataTimes := [some 7]
    trkNames := []
    points := [{ lat := some 1, lon := some 2, eles := [some 3], times := [some 7] }] }

/-- Strictly increasing point times, but a metadata start time after both:
elapsed values come out negative. -/
def c7Doc : GpxDoc :=
  { metadataTimes := [some 100000000]
    trkNames := []
    points := [{ lat := some 0, lon := some 0, eles := [], times := [some 0] },
               { lat := some 0, lon := some 0, eles := [], times := [some 30000000] }] }

def c7Point1 : Dict :=
  [(KEY_LAT, .vNum 0), (KEY_LON, .vNum 0), (KEY_TYPE, .vStr "gps"),
   (KEY_TIMESTAMP, .vInt (-100))]

def c7Point2 : Dict :=
  [(KEY_LAT, .vNum 0), (KEY_LON, .vNum 0), (KEY_TYPE, .vStr "gps"),
   (KEY_TIMESTAMP, .vInt (-70))]

def c7Out : Dict :=
  [(KEY_PATH, .vArr [.vObj c7Point1, .vObj c7Point2]),
   (KEY_STARTTIME, .vTime 100000000),
   (KEY_TYPE, .vStr "Running"), (KEY_EQUIPMENT, .vStr "None"),
   (KEY_NOTES, .vStr ""), (KEY_FB, .vBool false), (KEY_TWIT, .vBool false)]

def c7wDoc : GpxDoc :=
  { metadataTimes := [some 0]
    trkNames := []
    points := [{ lat := some 0, lon := some 0, eles := [], times := [some 0] },
               { lat := some 0, lon := some 0, eles := [], times := [some 30000000] }] }

def c7wPoint1 : Dict :=
  [(KEY_LAT, .vNum 0), (KEY_LON, .vNum 0), (KEY_TYPE, .vStr "gps"),
   (KEY_TIMESTAMP, .vInt 0)]

def c7wPoint2 : Dict :=
  [(KEY_LAT, .vNum 0), (KEY_LON, .vNum 0), (KEY_TYPE, .vStr "gps"),
   (KEY_TIMESTAMP, .vInt 30)]

def c7wOut : Dict :=
  [(KEY_PATH, .vArr [.vObj c7wPoint1, .vObj c7wPoint2]), (KEY_STARTTIME, .vTime 0),
   (KEY_TYPE, .vStr "Running"), (KEY_EQUIPMENT, .vStr "None"),
   (KEY_NOTES, .vStr ""), (KEY_FB, .vBool false), (KEY_TWIT, .vBool false)]

/-- A zero-point document: the per-point enrichment runs zero times, a
post-loop enrichment runs once. -/
def c8Doc : GpxDoc := { metadataTimes := [some 0], trkNames := [], points := [] }

def c8PostOut : Dict :=
  [(KEY_PATH, .vArr []), (KEY_STARTTIME, .vTime 0),
   (KEY_TYPE, .vStr "Running"), (KEY_EQUIPMENT, .vStr "None"),
   (KEY_NOTES, .vStr ""), (KEY_FB, .vBool false), (KEY_TWIT, .vBool false)]

def c8wDoc : GpxDoc :=
  { metadataTimes := [some 0]
    trkNames := []
    points := [{ lat := some 1, lon := some 1, eles := [], times := [] }] }

/-- The round-trip scenario of the spec: metadata time `T0`, two points at
`T0` and `T0 + 30s` (30000000 microseconds). -/
def c9Doc (T0 : ℤ) : GpxDoc :=
  { metadataTimes := [some T0]
    trkNames := []
    points := [{ lat := some 45, lon := some (-122), eles := [some 10],
                 times := [some T0] },
               { lat := some 45.001, lon := some (-122.001), eles := [some 12],
                 times := [some (T0 + 30000000)] }] }

def c9Point1 : Dict :=
  [(KEY_LAT, .vNum 45), (KEY_LON, .vNum (-122)), (KEY_TYPE, .vStr "gps"),
   (KEY_ALT, .vNum 10), (KEY_TIMESTAMP, .vInt 0)]

def c9Point2 : Dict :=
  [(KEY_LAT, .vNum 45.001), (KEY_LON, .vNum (-122.001)), (KEY_TYPE, .vStr "gps"),
   (KEY_ALT, .vNum 12), (KEY_TIMESTAMP, .vInt 30)]

def c9Out (T0 : ℤ) : Dict :=
  [(KEY_PATH, .vArr [.vObj c9Point1, .vObj c9Point2]), (KEY_STARTTIME, .vTime T0),
   (KEY_TYPE, .vStr "Running"), (KEY_EQUIPMENT, .vStr "None"),
   (KEY_NOTES, .vStr ""), (KEY_FB, .vBool false), (KEY_TWIT, .vBool false)]

section Lemmas

theorem exceptBind_ok {α β : Type} (a : α) (f : α → Except GpxError β) :
    (Except.ok a : Except GpxError α) >>= f = f a := rfl

theorem exceptBind_error {α β : Type} (e : GpxError) (f : α → Except GpxError β) :
    (Except.error e : Except GpxError α) >>= f = .error e := rfl

theorem exceptMap_ok {α β : Type} (a : α) (f : α → β) :
    Except.map f (Except.ok a : Except GpxError α) = .ok (f a) := rfl

theorem exceptMap_error {α β : Type} (e : GpxError) (f : α → β) :
    Except.map f (Except.error e : Except GpxError α) = .error e := rfl

theorem dmem_eq_isSome (k : String) (d : Dict) : dmem k d = (dget k d).isSome := by
  induction d with
  | nil => rfl
  | cons hd tl ih =>
    obtain ⟨k', v⟩ := hd
    by_cases h : k = k' <;> simp [dmem, dget, h, ih]

theorem dget_dset_self (k : String) (v : Value) (d : Dict) :
    dget k (dset k v d) = some v := by
  induction d with
  | nil => simp [dget, dset]
  | cons hd tl ih =>
    obtain ⟨k', v'⟩ := hd
    by_cases h : k = k' <;> simp [dget, dset, h, ih]

theorem dget_dset_ne {k k' : String} (h : k ≠ k') (v : Value) (d : Dict) :
    dget k (dset k' v d) = dget k d := by
  induction d with
  | nil => simp [dget, dset, h]
  | cons hd tl ih =>
    obtain ⟨k₁, v₁⟩ := hd
    by_cases h1 : k' = k₁
    · subst h1
      simp [dget, dset, h]
    · by_cases h2 : k = k₁ <;> simp [dget, dset, h1, h2, ih]

theorem dmem_dset (k k' : String) (v : Value) (d : Dict) :
    dmem k (dset k' v d) = if k = k' then true else dmem k d := by
  by_cases h : k = k'
  · subst h
    simp [dmem_eq_isSome, dget_dset_self]
  · simp [h, dmem_eq_isSome, dget_dset_ne h]

theorem dset_self_of_dget {k : String} {v : Value} {d : Dict}
    (h : dget k d = some v) : dset k v d = d := by
  induction d with
  | nil => simp [dget] at h
  | cons hd tl ih =>
    obtain ⟨k₁, v₁⟩ := hd
    by_cases h1 : k = k₁
    · subst h1
      simp [dget] at h
      simp [dset, h]
    · simp [dget, h1] at h
      simp [dset, h1, ih h]

theorem dset_dset_self (k : String) (v v' : Value) (d : Dict) :
    dset k v (dset k v' d) = dset k v d := by
  induction d with
  | nil => simp [dset]
  | cons hd tl ih =>
    obtain ⟨k₁, v₁⟩ := hd
    by_cases h1 : k = k₁ <;> simp [dset, h1, ih]

theorem dset_comm_of_mem {k k' : String} (hne : k ≠ k') {d : Dict}
    (hmem : dmem k d = true) (v v' : Value) :
    dset k' v' (dset k v d) = dset k v (dset k' v' d) := by
  induction d with
  | nil => simp [dmem] at hmem
  | cons hd tl ih =>
    obtain ⟨k₁, v₁⟩ := hd
    by_cases h1 : k = k₁
    · subst h1
      have h2 : ¬ k' = k := fun h => hne h.symm
      simp [dset, h2]
    · by_cases h2 : k' = k₁
      · subst h2
        simp [dset, h1]
      · simp [dmem, h1] at hmem
        simp [dset, h1, h2, ih hmem]

theorem mem_keys_iff_dmem (k : String) (d : Dict) :
    k ∈ keysOf d ↔ dmem k d = true := by
  induction d with
  | nil => simp [keysOf, dmem]
  | cons hd tl ih =>
    obtain ⟨k₁, v₁⟩ := hd
    by_cases h : k = k₁
    · simp [keysOf, dmem, h]
    · simp only [keysOf, List.map_cons, List.mem_cons, dmem, if_neg h]
      simp only [keysOf] at ih
      rw [← ih]
      simp [h]

theorem dget_isSome_of_mem_keys {k : String} {d : Dict} (h : k ∈ keysOf d) :
    (dget k d).isSome := by
  rw [← dmem_eq_isSome]
  exact (mem_keys_iff_dmem k d).1 h

theorem dget_enrichKeys_of_mem {k : String} {v : Value} (src : Dict)
    (ks : List String) {d : Dict} (h : dget k d = some v) :
    dget k (enrichKeys src d ks) = some v := by
  induction ks generalizing d with
  | nil => simpa [enrichKeys] using h
  | cons k0 rest ih =>
    by_cases hm : dmem k0 d
    · simp only [enrichKeys, hm, if_pos]
      exact ih h
    · have hne : k ≠ k0 := by
        intro he
        subst he
        rw [dmem_eq_isSome, h] at hm
        simp at hm
      simp only [enrichKeys, hm, if_neg, Bool.false_eq_true, not_false_iff]
      cases hv : dget k0 src with
      | none => exact ih h
      | some v0 =>
        apply ih
        rw [dget_dset_ne hne]
        exact h

theorem dmem_enrichKeys_of_mem {k : String} (src : Dict) (ks : List String)
    {d : Dict} (h : dmem k d = true) : dmem k (enrichKeys src d ks) = true := by
  rw [dmem_eq_isSome] at h ⊢
  obtain ⟨v, hv⟩ := Option.isSome_iff_exists.1 h
  rw [dget_enrichKeys_of_mem src ks hv]
  rfl

theorem dget_enrichKeys_of_not_mem_keys {k : String} (src : Dict)
    {ks : List String} (hk : k ∉ ks) (d : Dict) :
    dget k (enrichKeys src d ks) = dget k d := by
  induction ks generalizing d with
  | nil => rfl
  | cons k0 rest ih =>
    have hne : k ≠ k0 := fun h => hk (h ▸ List.mem_cons_self k0 rest)
    have hrest : k ∉ rest := fun h => hk (List.mem_cons_of_mem k0 h)
    by_cases hm : dmem k0 d
    · simp only [enrichKeys, hm, if_pos]
      exact ih hrest d
    · simp only [enrichKeys, hm, if_neg, Bool.false_eq_true, not_false_iff]
      cases hv : dget k0 src with
      | none => exact ih hrest d
      | some v0 => rw [ih hrest, dget_dset_ne hne]

theorem dget_enrichKeys_of_absent {k : String} {v : Value} {src : Dict}
    {ks : List String} {d : Dict} (hm : dmem k d = false)
    (hv : dget k src = some v) (hk : k ∈ ks) :
    dget k (enrichKeys src d ks) = some v := by
  induction ks generalizing d with
  | nil => simp at hk
  | cons k0 rest ih =>
    by_cases he : k0 = k
    · subst he
      simp only [enrichKeys, hm, if_neg, Bool.false_eq_true, not_false_iff, hv]
      exact dget_enrichKeys_of_mem src rest (dget_dset_self _ _ _)
    · have hk' : k ∈ rest := by
        rcases List.mem_cons.1 hk with h | h
        · exact absurd h.symm he
        · exact h
      by_cases hm0 : dmem k0 d
      · simp only [enrichKeys, hm0, if_pos]
        exact ih hm hk'
      · simp only [enrichKeys, hm0, if_neg, Bool.false_eq_true, not_false_iff]
        cases hv0 : dget k0 src with
        | none => exact ih hm hk'
        | some v0 =>
          have hne : ¬ k = k0 := fun h => he h.symm
          have hm' : dmem k (dset k0 v0 d) = false := by
            rw [dmem_dset]
            simp [hne, hm]
          exact ih hm' hk'

theorem dmem_enrichKeys_of_key {k : String} {src : Dict} {ks : List String}
    (hk : k ∈ ks) (hv : (dget k src).isSome) (d : Dict) :
    dmem k (enrichKeys src d ks) = true := by
  by_cases hm : dmem k d
  · exact dmem_enrichKeys_of_mem src ks hm
  · obtain ⟨v, hv'⟩ := Option.isSome_iff_exists.1 hv
    rw [dmem_eq_isSome,
      dget_enrichKeys_of_absent (Bool.not_eq_true _ ▸ hm : dmem k d = false) hv' hk]
    rfl

theorem enrichKeys_of_all_mem {ks : List String} {d : Dict}
    (h : ∀ k ∈ ks, dmem k d = true) (src : Dict) : enrichKeys src d ks = d := by
  induction ks with
  | nil => rfl
  | cons k0 rest ih =>
    have h0 : dmem k0 d = true := h k0 (List.mem_cons_self k0 rest)
    simp only [enrichKeys, h0, if_pos]
    exact ih fun k hk => h k (List.mem_cons_of_mem k0 hk)

theorem enrichKeys_dset_comm {k : String} {d : Dict} (hm : dmem k d = true)
    (src : Dict) (v : Value) (ks : List String) :
    enrichKeys src (dset k v d) ks = dset k v (enrichKeys src d ks) := by
  induction ks generalizing d with
  | nil => rfl
  | cons k0 rest ih =>
    by_cases he : k0 = k
    · subst he
      have h1 : dmem k0 (dset k0 v d) = true := by
        rw [dmem_dset]
        simp
      simp only [enrichKeys, h1, hm, if_pos]
      exact ih hm
    · have h1 : dmem k0 (dset k v d) = dmem k0 d := by
        rw [dmem_dset]
        simp [he]
      by_cases hm0 : dmem k0 d
      · simp only [enrichKeys, h1, hm0, if_pos]
        exact ih hm
      · simp only [enrichKeys, h1, hm0, if_neg, Bool.false_eq_true, not_false_iff]
        cases hv0 : dget k0 src with
        | none => exact ih hm
        | some v0 =>
          dsimp only
          rw [dset_comm_of_mem (fun h => he h.symm) hm]
          have hm' : dmem k (dset k0 v0 d) = true := by
            rw [dmem_dset]
            simp [hm]
          exact ih hm'

theorem lookupFmt_rk : lookupFmt TYPE_RK DEFAULT_DATA = some RK_DEFAULTS := by
  simp [lookupFmt, DEFAULT_DATA]

theorem enrich_data_rk (jdata additional_data : Dict) :
    enrich_data jdata additional_data TYPE_RK = .ok (enrichRK jdata additional_data) := by
  simp [enrich_data, lookupFmt, DEFAULT_DATA, enrichRK]

theorem enrich_data_no_default {data_type : String}
    (h : lookupFmt data_type DEFAULT_DATA = none) (jdata additional_data : Dict) :
    enrich_data jdata additional_data data_type = .error (.keyError data_type) := by
  simp [enrich_data, h]

theorem dget_enrichRK_of_mem {k : String} {v : Value} {jdata : Dict}
    (h : dget k jdata = some v) (additional_data : Dict) :
    dget k (enrichRK jdata additional_data) = some v :=
  dget_enrichKeys_of_mem _ _ (dget_enrichKeys_of_mem _ _ h)

theorem dmem_enrichRK_of_mem {k : String} {jdata : Dict}
    (h : dmem k jdata = true) (additional_data : Dict) :
    dmem k (enrichRK jdata additional_data) = true :=
  dmem_enrichKeys_of_mem _ _ (dmem_enrichKeys_of_mem _ _ h)

theorem enrichRK_idem (jdata additional_data : Dict) :
    enrichRK (enrichRK jdata additional_data) additional_data =
      enrichRK jdata additional_data := by
  have h1 : ∀ k ∈ keysOf additional_data,
      dmem k (enrichRK jdata additional_data) = true := by
    intro k hk
    exact dmem_enrichKeys_of_mem _ _
      (dmem_enrichKeys_of_key hk (dget_isSome_of_mem_keys hk) _)
  have h2 : ∀ k ∈ keysOf RK_DEFAULTS,
      dmem k (enrichRK jdata additional_data) = true := by
    intro k hk
    exact dmem_enrichKeys_of_key hk (dget_isSome_of_mem_keys hk) _
  show enrichKeys RK_DEFAULTS
      (enrichKeys additional_data (enrichRK jdata additional_data) _) _ = _
  rw [enrichKeys_of_all_mem h1, enrichKeys_of_all_mem h2]

theorem enrichRK_dset_comm {k : String} {jdata : Dict} (hm : dmem k jdata = true)
    (v : Value) (additional_data : Dict) :
    enrichRK (dset k v jdata) additional_data =
      dset k v (enrichRK jdata additional_data) := by
  show enrichKeys RK_DEFAULTS (enrichKeys additional_data (dset k v jdata) _) _ = _
  rw [enrichKeys_dset_comm hm, enrichKeys_dset_comm (dmem_enrichKeys_of_mem _ _ hm)]
  rfl

theorem enrich_data_heap_eq (jdata additional_data : Dict) (data_type : String) :
    enrich_data_heap jdata additional_data data_type =
      Except.map (fun j => (j, additional_data))
        (enrich_data jdata additional_data data_type) := by
  cases h : lookupFmt data_type DEFAULT_DATA <;>
    simp [enrich_data_heap, enrich_data, h, Except.map]

theorem buildPoints_cons (start_time : ℤ) (p : Trkpt) (ps : List Trkpt) :
    buildPoints start_time (p :: ps) =
      (buildPoint start_time p) >>= fun pp =>
        (buildPoints start_time ps) >>= fun pps => .ok (pp :: pps) := rfl

theorem rkLoopNoEnrich_eq (start_time : ℤ) {jdata : Dict} {l : List Value}
    (h : dget KEY_PATH jdata = some (.vArr l)) (ps : List Trkpt) :
    rkLoopNoEnrich start_time jdata ps =
      (buildPoints start_time ps).map
        (fun pps => dset KEY_PATH (.vArr (l ++ pps.map .vObj)) jdata) := by
  induction ps generalizing jdata l with
  | nil =>
    simp [rkLoopNoEnrich, buildPoints, Except.map, dset_self_of_dget h]
  | cons p rest ih =>
    cases hbp : buildPoint start_time p with
    | error e =>
      simp [rkLoopNoEnrich, buildPoints, hbp, exceptBind_error, Except.map]
    | ok pp =>
      have happ : appendPath jdata pp =
          dset KEY_PATH (.vArr (l ++ [.vObj pp])) jdata := by
        simp [appendPath, h]
      have h2 : dget KEY_PATH (dset KEY_PATH (.vArr (l ++ [.vObj pp])) jdata) =
          some (.vArr (l ++ [.vObj pp])) := dget_dset_self _ _ _
      rw [show rkLoopNoEnrich start_time jdata (p :: rest) =
          (buildPoint start_time p) >>= (fun pp =>
            rkLoopNoEnrich start_time (appendPath jdata pp) rest) from rfl,
        hbp, exceptBind_ok, happ, ih h2]
      cases hps : buildPoints start_time rest with
      | error e => simp [buildPoints, hbp, hps, exceptBind_ok, exceptBind_error, Except.map]
      | ok pps =>
        simp [buildPoints, hbp, hps, exceptBind_ok, Except.map, dset_dset_self]

theorem rkLoop_cons_eq (additional_data : Dict) (start_time : ℤ)
    {jdata : Dict} {l : List Value}
    (h : dget KEY_PATH jdata = some (.vArr l)) (p : Trkpt) (ps : List Trkpt) :
    rkLoop additional_data start_time jdata (p :: ps) =
      (buildPoints start_time (p :: ps)).map
        (fun pps => dset KEY_PATH (.vArr (l ++ pps.map .vObj))
          (enrichRK jdata additional_data)) := by
  induction ps generalizing jdata l p with
  | nil =>
    cases hbp : buildPoint start_time p with
    | error e =>
      simp [rkLoop, buildPoints, hbp, exceptBind_error, Except.map]
    | ok pp =>
      have happ : appendPath jdata pp =
          dset KEY_PATH (.vArr (l ++ [.vObj pp])) jdata := by
        simp [appendPath, h]
      have hmem : dmem KEY_PATH jdata = true := by
        rw [dmem_eq_isSome, h]
        rfl
      simp [rkLoop, buildPoints, hbp, exceptBind_ok, happ, enrich_data_rk,
        Except.map, enrichRK_dset_comm hmem]
  | cons p' rest ih =>
    cases hbp : buildPoint start_time p with
    | error e =>
      simp [rkLoop, buildPoints, hbp, exceptBind_error, Except.map]
    | ok pp =>
      have hmem : dmem KEY_PATH jdata = true := by
        rw [dmem_eq_isSome, h]
        rfl
      have happ : appendPath jdata pp =
          dset KEY_PATH (.vArr (l ++ [.vObj pp])) jdata := by
        simp [appendPath, h]
      have hcomm : enrichRK (dset KEY_PATH (.vArr (l ++ [.vObj pp])) jdata)
          additional_data =
          dset KEY_PATH (.vArr (l ++ [.vObj pp])) (enrichRK jdata additional_data) :=
        enrichRK_dset_comm hmem _ _
      have h2 : dget KEY_PATH
          (dset KEY_PATH (.vArr (l ++ [.vObj pp])) (enrichRK jdata additional_data)) =
          some (.vArr (l ++ [.vObj pp])) := dget_dset_self _ _ _
      rw [show rkLoop additional_data start_time jdata (p :: p' :: rest) =
          (buildPoint start_time p) >>= (fun pp => do
            let jd := appendPath jdata pp
            let jd ← enrich_data jd additional_data TYPE_RK
            rkLoop additional_data start_time jd (p' :: rest)) from rfl,
        hbp, exceptBind_ok]
      dsimp only
      rw [happ, enrich_data_rk, exceptBind_ok, hcomm, ih h2 p']
      have hmem2 : dmem KEY_PATH (enrichRK jdata additional_data) = true :=
        dmem_enrichRK_of_mem hmem _
      rw [enrichRK_dset_comm hmem2, enrichRK_idem]
      rw [buildPoints_cons start_time p, hbp, exceptBind_ok]
      cases hps : buildPoints start_time (p' :: rest) with
      | error e =>
        simp [hps, exceptBind_error, Except.map]
      | ok pps =>
        simp [hps, exceptBind_ok, Except.map, dset_dset_self]

theorem dget_path_jdInit (start_time : ℤ) :
    dget KEY_PATH (jdInit start_time) = some (.vArr []) := rfl

theorem dget_starttime_jdInit (start_time : ℤ) :
    dget KEY_STARTTIME (jdInit start_time) = some (.vTime start_time) := rfl

theorem convert_rkjson_def (d : GpxDoc) (a : Dict) :
    convert_gpx_to_rkjson d a =
      (resolveStartTime d) >>= fun s => rkLoop a s (jdInit s) d.points := rfl

theorem convert_rkjson_of_resolve_error {d : GpxDoc} {e : GpxError}
    (h : resolveStartTime d = .error e) (a : Dict) :
    convert_gpx_to_rkjson d a = .error e := by
  rw [convert_rkjson_def, h, exceptBind_error]

theorem convert_rkjson_of_nil {d : GpxDoc} {s : ℤ}
    (h : resolveStartTime d = .ok s) (hp : d.points = []) (a : Dict) :
    convert_gpx_to_rkjson d a = .ok (jdInit s) := by
  rw [convert_rkjson_def, h, exceptBind_ok, hp]
  rfl

theorem convert_rkjson_of_cons {d : GpxDoc} {s : ℤ} {p : Trkpt} {ps : List Trkpt}
    (h : resolveStartTime d = .ok s) (hp : d.points = p :: ps) (a : Dict) :
    convert_gpx_to_rkjson d a =
      (buildPoints s (p :: ps)).map
        (fun pps => dset KEY_PATH (.vArr (pps.map .vObj)) (enrichRK (jdInit s) a)) := by
  rw [convert_rkjson_def, h, exceptBind_ok, hp,
    rkLoop_cons_eq a s (dget_path_jdInit s) p ps]
  simp

theorem convert_rkjson_ok_cases {d : GpxDoc} {a : Dict} {j : Dict}
    (h : convert_gpx_to_rkjson d a = .ok j) :
    ∃ s, resolveStartTime d = .ok s ∧
      ((d.points = [] ∧ j = jdInit s) ∨
       (∃ pps, d.points ≠ [] ∧ buildPoints s d.points = .ok pps ∧
         j = dset KEY_PATH (.vArr (pps.map .vObj)) (enrichRK (jdInit s) a))) := by
  cases hres : resolveStartTime d with
  | error e => rw [convert_rkjson_of_resolve_error hres] at h; exact absurd h (by simp)
  | ok s =>
    refine ⟨s, rfl, ?_⟩
    cases hp : d.points with
    | nil =>
      rw [convert_rkjson_of_nil hres hp] at h
      exact Or.inl ⟨rfl, (Except.ok.injEq _ _ ▸ h).symm⟩
    | cons p ps =>
      rw [convert_rkjson_of_cons hres hp] at h
      cases hps : buildPoints s (p :: ps) with
      | error e => rw [hps, exceptMap_error] at h; exact absurd h (by simp)
      | ok pps =>
        rw [hps, exceptMap_ok] at h
        refine Or.inr ⟨pps, by simp, rfl, ?_⟩
        exact (Except.ok.injEq _ _ ▸ h).symm

theorem eleLoop_ok {es : List (Option ℚ)} (h : ∀ e ∈ es, e.isSome) (pp : Dict) :
    ∃ pp', eleLoop pp es = .ok pp' := by
  induction es generalizing pp with
  | nil => exact ⟨pp, rfl⟩
  | cons e rest ih =>
    cases e with
    | none => exact absurd (h none (List.mem_cons_self _ _)) (by simp)
    | some q => exact ih (fun x hx => h x (List.mem_cons_of_mem _ hx)) _

theorem timeLoop_ok {ts : List (Option ℤ)} (h : ∀ t ∈ ts, t.isSome)
    (start_time : ℤ) (pp : Dict) : ∃ pp', timeLoop start_time pp ts = .ok pp' := by
  induction ts generalizing pp with
  | nil => exact ⟨pp, rfl⟩
  | cons t rest ih =>
    cases t with
    | none => exact absurd (h none (List.mem_cons_self _ _)) (by simp)
    | some x => exact ih (fun y hy => h y (List.mem_cons_of_mem _ hy)) _

theorem buildPoint_ok {p : Trkpt} (h1 : p.lat.isSome) (h2 : p.lon.isSome)
    (h3 : ∀ e ∈ p.eles, e.isSome) (h4 : ∀ t ∈ p.times, t.isSome)
    (start_time : ℤ) : ∃ pp, buildPoint start_time p = .ok pp := by
  obtain ⟨la, hla⟩ := Option.isSome_iff_exists.1 h1
  obtain ⟨lo, hlo⟩ := Option.isSome_iff_exists.1 h2
  obtain ⟨pp1, hpp1⟩ := eleLoop_ok h3
    (dset KEY_TYPE (.vStr "gps") (dset KEY_LON (.vNum lo) (dset KEY_LAT (.vNum la) [])))
  obtain ⟨pp2, hpp2⟩ := timeLoop_ok h4 start_time pp1
  refine ⟨pp2, ?_⟩
  simp [buildPoint, hla, hlo, reqAttr, exceptBind_ok, hpp1, hpp2]

theorem buildPoints_ok {ps : List Trkpt}
    (h : ∀ p ∈ ps, p.lat.isSome ∧ p.lon.isSome ∧
      (∀ e ∈ p.eles, e.isSome) ∧ (∀ t ∈ p.times, t.isSome)) (start_time : ℤ) :
    ∃ pps, buildPoints start_time ps = .ok pps := by
  induction ps with
  | nil => exact ⟨[], rfl⟩
  | cons p rest ih =>
    obtain ⟨h1, h2, h3, h4⟩ := h p (List.mem_cons_self p rest)
    obtain ⟨pp, hpp⟩ := buildPoint_ok h1 h2 h3 h4 start_time
    obtain ⟨pps, hpps⟩ := ih fun q hq => h q (List.mem_cons_of_mem p hq)
    exact ⟨pp :: pps, by rw [buildPoints_cons, hpp, exceptBind_ok, hpps, exceptBind_ok]⟩

theorem buildPoints_forall₂ {start_time : ℤ} {ps : List Trkpt} {pps : List Dict}
    (h : buildPoints start_time ps = .ok pps) :
    List.Forall₂ (fun p pp => buildPoint start_time p = .ok pp) ps pps := by
  induction ps generalizing pps with
  | nil =>
    cases h
    exact List.Forall₂.nil
  | cons p rest ih =>
    rw [buildPoints_cons] at h
    cases hbp : buildPoint start_time p with
    | error e => rw [hbp, exceptBind_error] at h; exact absurd h (by simp)
    | ok pp =>
      rw [hbp, exceptBind_ok] at h
      cases hps : buildPoints start_time rest with
      | error e => rw [hps, exceptBind_error] at h; exact absurd h (by simp)
      | ok pps' =>
        rw [hps, exceptBind_ok] at h
        cases h
        exact List.Forall₂.cons hbp (ih hps)

theorem timeLoop_all_isSome {start_time : ℤ} {pp pp' : Dict} {ts : List (Option ℤ)}
    (h : timeLoop start_time pp ts = .ok pp') : ∀ x ∈ ts, x.isSome := by
  induction ts generalizing pp with
  | nil => simp
  | cons t rest ih =>
    cases t with
    | none => exact absurd h (by simp [timeLoop])
    | some x =>
      intro y hy
      rcases List.mem_cons.1 hy with hy | hy
      · simp [hy]
      · exact ih h y hy

theorem getLast?_some_of_all_isSome {l : List (Option ℤ)}
    (hl : ∀ x ∈ l, x.isSome) (hne : l ≠ []) : ∃ t, l.getLast? = some (some t) := by
  induction l with
  | nil => exact absurd rfl hne
  | cons x rest ih =>
    cases rest with
    | nil =>
      obtain ⟨t, ht⟩ := Option.isSome_iff_exists.1 (hl x (List.mem_cons_self _ _))
      exact ⟨t, by simp [ht]⟩
    | cons y rs =>
      rw [List.getLast?_cons_cons]
      exact ih (fun z hz => hl z (List.mem_cons_of_mem x hz)) (by simp)

theorem dget_timeLoop_timestamp {start_time : ℤ} {pp pp' : Dict}
    {ts : List (Option ℤ)} (h : timeLoop start_time pp ts = .ok pp') :
    dget KEY_TIMESTAMP pp' =
      match ts.getLast? with
      | some (some t) => some (.vInt (Int.tdiv (t - start_time) 1000000))
      | _ => dget KEY_TIMESTAMP pp := by
  induction ts generalizing pp with
  | nil =>
    cases h
    rfl
  | cons t rest ih =>
    cases t with
    | none => exact absurd h (by simp [timeLoop])
    | some t =>
      have hall : ∀ x ∈ rest, x.isSome := timeLoop_all_isSome h
      cases hrest : rest with
      | nil =>
        subst hrest
        cases h
        simp [dget_dset_self]
      | cons r rs =>
        subst hrest
        obtain ⟨t', ht'⟩ := getLast?_some_of_all_isSome hall (by simp)
        rw [List.getLast?_cons_cons, ht']
        have := ih h
        rw [ht'] at this
        exact this

theorem dget_eleLoop_ne {k : String} (hk : k ≠ KEY_ALT) {pp pp' : Dict}
    {es : List (Option ℚ)} (h : eleLoop pp es = .ok pp') :
    dget k pp' = dget k pp := by
  induction es generalizing pp with
  | nil =>
    cases h
    rfl
  | cons e rest ih =>
    cases e with
    | none => exact absurd h (by simp [eleLoop])
    | some q => rw [ih h, dget_dset_ne hk]

theorem dget_buildPoint_timestamp {start_time : ℤ} {p : Trkpt} {pp : Dict}
    (h : buildPoint start_time p = .ok pp) :
    dget KEY_TIMESTAMP pp =
      (lastTimeOf p).map (fun t => .vInt (Int.tdiv (t - start_time) 1000000)) := by
  rcases hla : p.lat with _ | la
  · rw [buildPoint, hla] at h
    exact absurd h (by simp [reqAttr, exceptBind_error])
  rcases hlo : p.lon with _ | lo
  · rw [buildPoint, hla, hlo] at h
    exact absurd h (by simp [reqAttr, exceptBind_ok, exceptBind_error])
  rw [buildPoint, hla, hlo] at h
  simp only [reqAttr, exceptBind_ok] at h
  cases hel : eleLoop
      (dset KEY_TYPE (.vStr "gps") (dset KEY_LON (.vNum lo) (dset KEY_LAT (.vNum la) [])))
      p.eles with
  | error e => rw [hel] at h; exact absurd h (by simp [exceptBind_error])
  | ok pp1 =>
    rw [hel, exceptBind_ok] at h
    have hts := dget_timeLoop_timestamp h
    have hbase : dget KEY_TIMESTAMP pp1 = none := by
      rw [dget_eleLoop_ne (by decide) hel]
      rfl
    rcases htimes : p.times.getLast? with _ | x
    · have : p.times = [] := List.getLast?_eq_none_iff.1 htimes
      rw [htimes] at hts
      rw [hts, hbase, lastTimeOf, htimes]
      rfl
    · have hne : p.times ≠ [] := by
        intro he
        rw [he] at htimes
        exact absurd htimes (by simp)
      obtain ⟨t, ht⟩ := getLast?_some_of_all_isSome (timeLoop_all_isSome h) hne
      rw [ht] at htimes hts
      cases htimes
      rw [hts, lastTimeOf, ht]
      rfl

theorem tdiv_le_tdiv_of_le {a b d : ℤ} (hd : 0 < d) (h : a ≤ b) :
    a.tdiv d ≤ b.tdiv d := by
  rcases le_or_lt 0 a with ha | ha
  · rw [Int.tdiv_eq_ediv ha hd.le, Int.tdiv_eq_ediv (le_trans ha h) hd.le]
    exact Int.ediv_le_ediv hd h
  · rcases le_or_lt 0 b with hb | hb
    · have h1 : (-a).tdiv d = -a.tdiv d := Int.neg_tdiv a d
      have h2 : 0 ≤ (-a).tdiv d := Int.tdiv_nonneg (by omega) hd.le
      have h3 : 0 ≤ b.tdiv d := Int.tdiv_nonneg hb hd.le
      omega
    · have e1 : (-a).tdiv d = -a.tdiv d := Int.neg_tdiv a d
      have e2 : (-b).tdiv d = -b.tdiv d := Int.neg_tdiv b d
      have h4 : (-b).tdiv d ≤ (-a).tdiv d := by
        rw [Int.tdiv_eq_ediv (by omega) hd.le, Int.tdiv_eq_ediv (by omega) hd.le]
        exact Int.ediv_le_ediv hd (by omega)
      omega

theorem tdiv_eq_fdiv_of_nonneg {a d : ℤ} (ha : 0 ≤ a) (hd : 0 ≤ d) :
    a.tdiv d = a.fdiv d := by
  rw [Int.tdiv_eq_ediv ha hd, Int.fdiv_eq_ediv a hd]

theorem filterMap_ts_of_forall₂ {start_time : ℤ} {ps : List Trkpt} {pps : List Dict}
    (h : List.Forall₂ (fun p pp => buildPoint start_time p = .ok pp) ps pps) :
    (pps.map Value.vObj).filterMap tsOfValue =
      (ps.filterMap lastTimeOf).map (fun t => Int.tdiv (t - start_time) 1000000) := by
  induction h with
  | nil => rfl
  | @cons p pp ps' pps' hpp hrest ih =>
    have hts := dget_buildPoint_timestamp hpp
    cases hlt : lastTimeOf p with
    | none =>
      rw [hlt] at hts
      simp only [List.map_cons, List.filterMap_cons, List.filterMap_cons]
      rw [show tsOfValue (.vObj pp) = none by simp [tsOfValue, hts], ih]
      simp [hlt]
    | some t =>
      rw [hlt] at hts
      simp only [List.map_cons, List.filterMap_cons, List.filterMap_cons]
      rw [show tsOfValue (.vObj pp) = some (Int.tdiv (t - start_time) 1000000) by
        simp [tsOfValue, hts], ih]
      simp [hlt]

theorem pathTimestamps_convert {d : GpxDoc} {a j : Dict} {s : ℤ}
    (hs : resolveStartTime d = .ok s) (h : convert_gpx_to_rkjson d a = .ok j) :
    pathTimestamps j = (pointTimes d).map (fun t => Int.tdiv (t - s) 1000000) := by
  obtain ⟨s', hs', hcases⟩ := convert_rkjson_ok_cases h
  rw [hs] at hs'
  cases hs'
  rcases hcases with ⟨hnil, hj⟩ | ⟨pps, hne, hps, hj⟩
  · subst hj
    rw [pathTimestamps, pointTimes, hnil]
    rfl
  · subst hj
    rw [pathTimestamps, getPath, dget_dset_self, pointTimes]
    exact filterMap_ts_of_forall₂ (buildPoints_forall₂ hps)

theorem geoLoop_forall₂ {ps : List Trkpt} {cs : List Value}
    (h : geoLoop ps = .ok cs) :
    List.Forall₂ (fun p c => ∃ la lo, p.lat = some la ∧ p.lon = some lo ∧
      c = Value.vArr [.vNum lo, .vNum la]) ps cs := by
  induction ps generalizing cs with
  | nil =>
    cases h
    exact List.Forall₂.nil
  | cons p rest ih =>
    rcases hlo : p.lon with _ | lo
    · rw [show geoLoop (p :: rest) = (reqAttr p.lon) >>= (fun lon =>
          (reqAttr p.lat) >>= fun lat => (geoLoop rest) >>= fun cs =>
            .ok (.vArr [.vNum lon, .vNum lat] :: cs)) from rfl, hlo] at h
      exact absurd h (by simp [reqAttr, exceptBind_error])
    rcases hla : p.lat with _ | la
    · rw [show geoLoop (p :: rest) = (reqAttr p.lon) >>= (fun lon =>
          (reqAttr p.lat) >>= fun lat => (geoLoop rest) >>= fun cs =>
            .ok (.vArr [.vNum lon, .vNum lat] :: cs)) from rfl, hlo, hla] at h
      exact absurd h (by simp [reqAttr, exceptBind_ok, exceptBind_error])
    rw [show geoLoop (p :: rest) = (reqAttr p.lon) >>= (fun lon =>
        (reqAttr p.lat) >>= fun lat => (geoLoop rest) >>= fun cs =>
          .ok (.vArr [.vNum lon, .vNum lat] :: cs)) from rfl, hlo, hla] at h
    simp only [reqAttr, exceptBind_ok] at h
    cases hrest : geoLoop rest with
    | error e => rw [hrest, exceptBind_error] at h; exact absurd h (by simp)
    | ok cs' =>
      rw [hrest, exceptBind_ok] at h
      cases h
      exact List.Forall₂.cons ⟨la, lo, hla, hlo, rfl⟩ (ih hrest)

theorem convert_geojson_no_name {d : GpxDoc} (h : d.trkNames = []) (a : Dict) :
    convert_gpx_to_geojson d a = .error .missingTrackName := by
  simp [convert_gpx_to_geojson, h, exceptBind_error]

theorem convert_geojson_no_meta {d : GpxDoc} {n : String} {ns : List String}
    (hn : d.trkNames = n :: ns) (hm : d.metadataTimes = []) (a : Dict) :
    convert_gpx_to_geojson d a = .error .missingStartTime := by
  simp [convert_gpx_to_geojson, hn, hm, exceptBind_ok, exceptBind_error]

theorem convert_geojson_eq {d : GpxDoc} {n : String} {ns : List String}
    {t : ℤ} {mts : List (Option ℤ)}
    (hn : d.trkNames = n :: ns) (hm : d.metadataTimes = some t :: mts) (a : Dict) :
    convert_gpx_to_geojson d a =
      (geoLoop d.points).map (fun cs =>
        [(KEY_TYPE, .vStr "FeatureCollection"),
         (KEY_FEATURES, .vArr [.vObj
           [(KEY_TYPE, .vStr "Feature"),
            (KEY_PROP, .vObj [(KEY_NAME, .vStr n), (KEY_TIME, .vTime t)]),
            (KEY_GEO, .vObj [(KEY_TYPE, .vStr "LineString"),
                             (KEY_COORDS, .vArr cs)])]])]) := by
  cases hg : geoLoop d.points with
  | error e =>
    simp [convert_gpx_to_geojson, hn, hm, hg, exceptBind_ok, exceptBind_error,
      Except.map]
  | ok cs =>
    simp only [convert_gpx_to_geojson, hn, hm, hg, exceptBind_ok, Except.map]
    rfl

theorem dget_starttime_of_ok {d : GpxDoc} {a j : Dict} {s : ℤ}
    (hs : resolveStartTime d = .ok s) (h : convert_gpx_to_rkjson d a = .ok j) :
    dget KEY_STARTTIME j = some (.vTime s) := by
  obtain ⟨s', hs', hc⟩ := convert_rkjson_ok_cases h
  rw [hs] at hs'
  cases hs'
  rcases hc with ⟨_, hj⟩ | ⟨pps, _, _, hj⟩
  · subst hj
    rfl
  · subst hj
    rw [dget_dset_ne (by decide), dget_enrichRK_of_mem (dget_starttime_jdInit s)]

theorem convert_rkjson_heap_def (d : GpxDoc) (a : Dict) :
    convert_gpx_to_rkjson_heap d a =
      (resolveStartTime d) >>= fun s => rkLoopHeap s (jdInit s, a) d.points := rfl

theorem rkLoopHeap_eq (start_time : ℤ) (a : Dict) (ps : List Trkpt) (jd : Dict) :
    rkLoopHeap start_time (jd, a) ps =
      Except.map (fun j => (j, a)) (rkLoop a start_time jd ps) := by
  induction ps generalizing jd with
  | nil => rfl
  | cons p rest ih =>
    cases hbp : buildPoint start_time p with
    | error e =>
      simp [rkLoopHeap, rkLoop, hbp, exceptBind_error, Except.map]
    | ok pp =>
      simp only [rkLoopHeap, rkLoop, hbp, exceptBind_ok]
      rw [enrich_data_heap_eq, enrich_data_rk, exceptMap_ok, exceptBind_ok,
        exceptBind_ok, ih]

theorem enrich_data_idem {jdata additional_data j : Dict} {data_type : String}
    (h : enrich_data jdata additional_data data_type = .ok j) :
    enrich_data j additional_data data_type = .ok j := by
  cases hl : lookupFmt data_type DEFAULT_DATA with
  | none =>
    rw [enrich_data_no_default hl] at h
    exact absurd h (by simp)
  | some defaults =>
    have hj : j = enrichKeys defaults
        (enrichKeys additional_data jdata (keysOf additional_data))
        (keysOf defaults) := by
      rw [enrich_data, hl] at h
      exact (Except.ok.inj h).symm
    have h1 : ∀ k ∈ keysOf additional_data, dmem k j = true := by
      intro k hk
      rw [hj]
      exact dmem_enrichKeys_of_mem _ _
        (dmem_enrichKeys_of_key hk (dget_isSome_of_mem_keys hk) _)
    have h2 : ∀ k ∈ keysOf defaults, dmem k j = true := by
      intro k hk
      rw [hj]
      exact dmem_enrichKeys_of_key hk (dget_isSome_of_mem_keys hk) _
    rw [enrich_data, hl]
    simp only
    rw [enrichKeys_of_all_mem h1, enrichKeys_of_all_mem h2]

end Lemmas

/-- C1 (counterexample): the claim says both conversions fall back to the
first time element anywhere when the metadata has none.  On `c1Doc` — no
metadata time, but a track-point time — `convert_gpx_to_rkjson` resolves a
start time via the fallback and succeeds, while `convert_gpx_to_geojson`
fails with the missing-start-time error, so the fallback claim is false for
the GeoJSON conversion. -/
theorem c1_counterexample :
    docTimes c1Doc = [some 0] ∧
    convert_gpx_to_rkjson c1Doc [] = .ok c1Out ∧
    convert_gpx_to_geojson c1Doc [] = .error .missingStartTime :=
  ⟨rfl, rfl, rfl⟩

/-- C1 (amended): `convert_gpx_to_rkjson` resolves the start time from the
first metadata time element, else from the first time element anywhere, and
fails with `MissingStartTimeError` when the document has no time element at
all; `convert_gpx_to_geojson` reads only the first metadata time element
and fails with `MissingStartTimeError` whenever the metadata has none, even
if other time elements exist (no fallback). -/
theorem c1_start_time_resolution (d : GpxDoc) (a : Dict) :
    (∀ t rest j, d.metadataTimes = some t :: rest →
      convert_gpx_to_rkjson d a = .ok j →
      dget KEY_STARTTIME j = some (.vTime t)) ∧
    (∀ t rest j, d.metadataTimes = [] → docTimes d = some t :: rest →
      convert_gpx_to_rkjson d a = .ok j →
      dget KEY_STARTTIME j = some (.vTime t)) ∧
    (docTimes d = [] → convert_gpx_to_rkjson d a = .error .missingStartTime) ∧
    (d.trkNames ≠ [] → d.metadataTimes = [] →
      convert_gpx_to_geojson d a = .error .missingStartTime) := by
  refine ⟨?_, ?_, ?_, ?_⟩
  · intro t rest j hm h
    have hs : resolveStartTime d = .ok t := by
      rw [resolveStartTime, hm]
    exact dget_starttime_of_ok hs h
  · intro t rest j hm hd h
    have hs : resolveStartTime d = .ok t := by
      rw [resolveStartTime, hm, hd]
    exact dget_starttime_of_ok hs h
  · intro hd
    have hm : d.metadataTimes = [] := by
      have := hd
      rw [docTimes] at this
      exact List.append_eq_nil.1 this |>.1
    have hs : resolveStartTime d = .error .missingStartTime := by
      rw [resolveStartTime, hm, hd]
    exact convert_rkjson_of_resolve_error hs a
  · intro hn hm
    cases htn : d.trkNames with
    | nil => exact absurd htn hn
    | cons n ns => exact convert_geojson_no_meta htn hm a

/-- C1 (witness): the amended resolution behaviour at concrete documents:
metadata time used when present, fallback used by the RunKeeper conversion,
both conversions failing when their respective sources are empty. -/
theorem c1_start_time_resolution_witness :
    dget KEY_STARTTIME (jdInit 5) = some (.vTime 5) ∧
    dget KEY_STARTTIME c1Out = some (.vTime 0) ∧
    convert_gpx_to_rkjson c1wEmpty [] = .error .missingStartTime ∧
    convert_gpx_to_geojson c1Doc [] = .error .missingStartTime :=
  ⟨(c1_start_time_resolution c1wDoc []).1 5 [] (jdInit 5) rfl rfl,
   (c1_start_time_resolution c1Doc []).2.1 0 [] c1Out rfl rfl rfl,
   (c1_start_time_resolution c1wEmpty []).2.2.1 rfl,
   (c1_start_time_resolution c1Doc []).2.2.2 (by simp [c1Doc]) rfl⟩

/-- C4 (counterexample): `geojson` is one of the program's format types,
yet `enrich_data` does not perform the two-tier fill for it — the
`DEFAULT_DATA` table has no entry, so the call fails with a `KeyError`
instead of producing an enriched record. -/
theorem c4_counterexample :
    TYPE_GEOJSON ∈ OUTPUT_TYPES ∧
    enrich_data [] [] TYPE_GEOJSON = .error (.keyError TYPE_GEOJSON) :=
  ⟨by simp [OUTPUT_TYPES], rfl⟩

/-- C4 (amended): for the `runkeeper` format type — the only key of the
built-in default table — `enrich_data` performs the two-tier fill: it
returns the record extended first with each override key not already
present, then with each default key still unset, and never changes the
value of a key already present; for any format type without a default
table entry it fails with a `KeyError`. -/
theorem c4_enrich_two_tier (jdata additional_data : Dict) :
    (∀ j, enrich_data jdata additional_data TYPE_RK = .ok j →
      (∀ k v, dget k jdata = some v → dget k j = some v) ∧
      (∀ k v, dmem k jdata = false → dget k additional_data = some v →
        dget k j = some v) ∧
      (∀ k v, dmem k jdata = false → dmem k additional_data = false →
        dget k RK_DEFAULTS = some v → dget k j = some v)) ∧
    enrich_data jdata additional_data TYPE_RK =
      .ok (enrichRK jdata additional_data) ∧
    (∀ data_type, lookupFmt data_type DEFAULT_DATA = none →
      enrich_data jdata additional_data data_type =
        .error (.keyError data_type)) := by
  refine ⟨?_, enrich_data_rk _ _, fun t ht => enrich_data_no_default ht _ _⟩
  intro j h
  rw [enrich_data_rk] at h
  have hj : j = enrichRK jdata additional_data := (Except.ok.inj h).symm
  subst hj
  refine ⟨?_, ?_, ?_⟩
  · intro k v hv
    exact dget_enrichRK_of_mem hv _
  · intro k v hm hv
    have hk : k ∈ keysOf additional_data := by
      rw [mem_keys_iff_dmem, dmem_eq_isSome, hv]
      rfl
    exact dget_enrichKeys_of_mem _ _ (dget_enrichKeys_of_absent hm hv hk)
  · intro k v hm hma hv
    have hka : k ∉ keysOf additional_data := by
      rw [mem_keys_iff_dmem, hma]
      simp
    have hkd : k ∈ keysOf RK_DEFAULTS := by
      rw [mem_keys_iff_dmem, dmem_eq_isSome, hv]
      rfl
    have hm1 : dmem k (enrichKeys additional_data jdata
        (keysOf additional_data)) = false := by
      rw [dmem_eq_isSome, dget_enrichKeys_of_not_mem_keys _ hka, ← dmem_eq_isSome]
      exact hm
    exact dget_enrichKeys_of_absent hm1 hv hkd

/-- C4 (witness): the two-tier fill at a concrete record and override
mapping — the present key keeps its value, the override key is copied, the
unset default key is filled — and the `KeyError` failure for the `geojson`
format type. -/
theorem c4_enrich_two_tier_witness :
    dget KEY_TYPE c4wOut = some (.vStr "X") ∧
    dget KEY_NOTES c4wOut = some (.vStr "n") ∧
    dget KEY_EQUIPMENT c4wOut = some (.vStr "None") ∧
    enrich_data c4wRecord c4wOver TYPE_GEOJSON = .error (.keyError TYPE_GEOJSON) :=
  ⟨((c4_enrich_two_tier c4wRecord c4wOver).1 c4wOut rfl).1 KEY_TYPE _ rfl,
   ((c4_enrich_two_tier c4wRecord c4wOver).1 c4wOut rfl).2.1 KEY_NOTES _ rfl rfl,
   ((c4_enrich_two_tier c4wRecord c4wOver).1 c4wOut rfl).2.2 KEY_EQUIPMENT _ rfl rfl rfl,
   (c4_enrich_two_tier c4wRecord c4wOver).2.2 TYPE_GEOJSON rfl⟩

/-- C5 (counterexample): on a valid document with zero track points the
enrichment loop never runs, so neither the caller-supplied override
(`notes`) nor any default key (`type`) reaches the output record, contrary
to the claim, which promises them for every valid document. -/
theorem c5_counterexample :
    convert_gpx_to_rkjson c5Doc [(KEY_NOTES, .vStr "hello")] = .ok (jdInit 0) ∧
    dget KEY_NOTES (jdInit 0) = none ∧
    dget KEY_TYPE (jdInit 0) = none :=
  ⟨rfl, rfl, rfl⟩

/-- C5 (amended): for every valid GPX document with at least one track
point and every override mapping whose keys avoid the reserved `path` and
`start_time` record fields, the converted record carries every override
value unmodified, has all five default keys present, and fills each default
key from the built-in defaults when no override supplied it. -/
theorem c5_rkjson_enrichment {d : GpxDoc} {a j : Dict}
    (hne : d.points ≠ [])
    (hk : ∀ k ∈ keysOf a, k ≠ KEY_PATH ∧ k ≠ KEY_STARTTIME)
    (h : convert_gpx_to_rkjson d a = .ok j) :
    (∀ k v, dget k a = some v → dget k j = some v) ∧
    (∀ k, k ∈ keysOf RK_DEFAULTS → dmem k j = true) ∧
    (∀ k v, dmem k a = false → dget k RK_DEFAULTS = some v →
      dget k j = some v) := by
  obtain ⟨s, hs, hc⟩ := convert_rkjson_ok_cases h
  rcases hc with ⟨hnil, _⟩ | ⟨pps, _, _, hj⟩
  · exact absurd hnil hne
  subst hj
  have hdefkeys : ∀ k, k ∈ keysOf RK_DEFAULTS →
      k ≠ KEY_PATH ∧ k ≠ KEY_STARTTIME ∧ dmem k (jdInit s) = false := by
    intro k hkd
    simp [keysOf, RK_DEFAULTS] at hkd
    rcases hkd with h | h | h | h | h <;> subst h <;>
      exact ⟨by decide, by decide, rfl⟩
  refine ⟨?_, ?_, ?_⟩
  · intro k v hv
    have hmem : k ∈ keysOf a := by
      rw [mem_keys_iff_dmem, dmem_eq_isSome, hv]
      rfl
    obtain ⟨hk1, hk2⟩ := hk k hmem
    have hminit : dmem k (jdInit s) = false := by
      simp [jdInit, dmem, hk1, hk2]
    rw [dget_dset_ne hk1]
    exact dget_enrichKeys_of_mem _ _ (dget_enrichKeys_of_absent hminit hv hmem)
  · intro k hkd
    obtain ⟨hk1, _, _⟩ := hdefkeys k hkd
    rw [dmem_dset]
    simp only [hk1, if_neg, not_false_iff]
    exact dmem_enrichKeys_of_key hkd (dget_isSome_of_mem_keys hkd) _
  · intro k v hma hv
    have hkd : k ∈ keysOf RK_DEFAULTS := by
      rw [mem_keys_iff_dmem, dmem_eq_isSome, hv]
      rfl
    obtain ⟨hk1, _, hminit⟩ := hdefkeys k hkd
    have hka : k ∉ keysOf a := by
      rw [mem_keys_iff_dmem, hma]
      simp
    have hm1 : dmem k (enrichKeys a (jdInit s) (keysOf a)) = false := by
      rw [dmem_eq_isSome, dget_enrichKeys_of_not_mem_keys _ hka, ← dmem_eq_isSome]
      exact hminit
    rw [dget_dset_ne hk1]
    exact dget_enrichKeys_of_absent hm1 hv hkd

/-- C5 (witness): the amended enrichment property at a one-point document
with a `notes` override: the override survives, `type` is present, and the
untouched default `equipment` is filled. -/
theorem c5_rkjson_enrichment_witness :
    (c5wDoc.points ≠ [] ∧
     (∀ k ∈ keysOf c5wOver, k ≠ KEY_PATH ∧ k ≠ KEY_STARTTIME) ∧
     convert_gpx_to_rkjson c5wDoc c5wOver = .ok c5wOut) ∧
    dget KEY_NOTES c5wOut = some (.vStr "x") ∧
    dmem KEY_TYPE c5wOut = true ∧
    dget KEY_EQUIPMENT c5wOut = some (.vStr "None") :=
  ⟨⟨by simp [c5wDoc], by decide, rfl⟩,
   (@c5_rkjson_enrichment c5wDoc c5wOver c5wOut (by simp [c5wDoc]) (by decide) rfl).1
     KEY_NOTES _ rfl,
   (@c5_rkjson_enrichment c5wDoc c5wOver c5wOut (by simp [c5wDoc]) (by decide) rfl).2.1
     KEY_TYPE (by decide),
   (@c5_rkjson_enrichment c5wDoc c5wOver c5wOut (by simp [c5wDoc]) (by decide) rfl).2.2
     KEY_EQUIPMENT _ rfl rfl⟩

/-- C6 (counterexample): the claim promises that `convert_gpx_to_rkjson`
succeeds on every document lacking a track name; on a nameless document
that also lacks any time element it fails with the missing-start-time
error instead (while the GeoJSON conversion still reports the missing
name, which is checked first). -/
theorem c6_counterexample :
    convert_gpx_to_geojson c6Doc [] = .error .missingTrackName ∧
    convert_gpx_to_rkjson c6Doc [] = .error .missingStartTime :=
  ⟨rfl, rfl⟩

/-- C6 (amended): for every document with no track name element the GeoJSON
conversion fails with `MissingTrackNameError` (the name is read before
anything else), and the RunKeeper conversion — which never reads the name —
succeeds on the same input provided its start time resolves and its points
are well formed. -/
theorem c6_missing_name {d : GpxDoc} (hname : d.trkNames = []) (a : Dict) :
    convert_gpx_to_geojson d a = .error .missingTrackName ∧
    (∀ s, resolveStartTime d = .ok s → wfPoints d →
      (convert_gpx_to_rkjson d a).isOk = true) := by
  refine ⟨convert_geojson_no_name hname a, ?_⟩
  intro s hs hwf
  cases hp : d.points with
  | nil =>
    rw [convert_rkjson_of_nil hs hp]
    rfl
  | cons p ps =>
    rw [convert_rkjson_of_cons hs hp]
    have hwf' : ∀ q ∈ p :: ps, q.lat.isSome ∧ q.lon.isSome ∧
        (∀ e ∈ q.eles, e.isSome) ∧ (∀ t ∈ q.times, t.isSome) := by
      rw [← hp]
      exact hwf
    obtain ⟨pps, hpps⟩ := buildPoints_ok hwf' s
    rw [hpps, exceptMap_ok]
    rfl

/-- C6 (witness): a nameless but otherwise well-formed document: GeoJSON
conversion fails with the missing-name error, RunKeeper conversion
succeeds. -/
theorem c6_missing_name_witness :
    (c6wDoc.trkNames = [] ∧ resolveStartTime c6wDoc = .ok 7 ∧ wfPoints c6wDoc) ∧
    convert_gpx_to_geojson c6wDoc [] = .error .missingTrackName ∧
    (convert_gpx_to_rkjson c6wDoc []).isOk = true :=
  ⟨⟨rfl, rfl, by simp [wfPoints, c6wDoc]⟩,
   (c6_missing_name rfl []).1,
   (c6_missing_name rfl []).2 7 rfl (by simp [wfPoints, c6wDoc])⟩

/-- C2 (counterexample): the claim says the elapsed field is the floor of
the seconds between point time and start time.  On `c2Doc` the single
point lies 1.5 seconds before the start: the code stores the truncation
`-1` where the floor is `-2`. -/
theorem c2_counterexample :
    convert_gpx_to_rkjson c2Doc [] = .ok c2Out ∧
    pathTimestamps c2Out = [-1] ∧
    Int.fdiv (0 - 1500000) 1000000 = -2 ∧ ((-1 : ℤ) ≠ -2) :=
  ⟨rfl, rfl, by decide, by decide⟩

/-- C2 (amended): for every track point of a converted document, the output
point's `timestamp` field holds the total seconds between the point's (last)
time and the resolved start time truncated towards zero (Python `int()`),
which coincides with the floor whenever the point is not earlier than the
start time; a point with no time child gets no `timestamp` field. -/
theorem c2_elapsed_truncation {d : GpxDoc} {a j : Dict} {s : ℤ}
    (hs : resolveStartTime d = .ok s) (h : convert_gpx_to_rkjson d a = .ok j) :
    List.Forall₂ (fun p v => ∃ pp, v = Value.vObj pp ∧
      dget KEY_TIMESTAMP pp =
        (lastTimeOf p).map (fun t => .vInt (Int.tdiv (t - s) 1000000)) ∧
      (∀ t, lastTimeOf p = some t → s ≤ t →
        dget KEY_TIMESTAMP pp = some (.vInt (Int.fdiv (t - s) 1000000))) ∧
      (p.times = [] → dget KEY_TIMESTAMP pp = none))
      d.points (getPath j) := by
  obtain ⟨s', hs', hc⟩ := convert_rkjson_ok_cases h
  rw [hs] at hs'
  cases hs'
  rcases hc with ⟨hnil, hj⟩ | ⟨pps, hne, hps, hj⟩
  · subst hj
    rw [hnil]
    exact List.Forall₂.nil
  · subst hj
    rw [getPath, dget_dset_self, List.forall₂_map_right_iff]
    refine (buildPoints_forall₂ hps).imp ?_
    intro p pp hpp
    refine ⟨pp, rfl, dget_buildPoint_timestamp hpp, ?_, ?_⟩
    · intro t hlt hst
      have he : Int.tdiv (t - s) 1000000 = Int.fdiv (t - s) 1000000 :=
        tdiv_eq_fdiv_of_nonneg (by omega) (by norm_num)
      simp [dget_buildPoint_timestamp hpp, hlt, he]
    · intro htimes
      rw [dget_buildPoint_timestamp hpp, lastTimeOf, htimes]
      rfl

/-- C2 (witness): the amended elapsed-seconds property at a document with
one timed point (truncated value `0` for half a second) and one untimed
point (no `timestamp` field). -/
theorem c2_elapsed_truncation_witness :
    (resolveStartTime c2wDoc = .ok 0 ∧
     convert_gpx_to_rkjson c2wDoc [] = .ok c2wOut) ∧
    List.Forall₂ (fun p v => ∃ pp, v = Value.vObj pp ∧
      dget KEY_TIMESTAMP pp =
        (lastTimeOf p).map (fun t => .vInt (Int.tdiv (t - 0) 1000000)) ∧
      (∀ t, lastTimeOf p = some t → 0 ≤ t →
        dget KEY_TIMESTAMP pp = some (.vInt (Int.fdiv (t - 0) 1000000))) ∧
      (p.times = [] → dget KEY_TIMESTAMP pp = none))
      c2wDoc.points (getPath c2wOut) :=
  ⟨⟨rfl, rfl⟩, @c2_elapsed_truncation c2wDoc [] c2wOut 0 rfl rfl⟩

/-- C3 (confirmed): every successful GeoJSON conversion emits exactly one
coordinate pair per track point, in document order, each pair being
`[longitude, latitude]` built from the point's attributes and nothing else
(no altitude, no time). -/
theorem c3_geojson_coords {d : GpxDoc} {a j : Dict}
    (h : convert_gpx_to_geojson d a = .ok j) :
    List.Forall₂ (fun p c => ∃ la lo, p.lat = some la ∧ p.lon = some lo ∧
      c = Value.vArr [.vNum lo, .vNum la]) d.points (geoCoords j) := by
  cases htn : d.trkNames with
  | nil =>
    rw [convert_geojson_no_name htn] at h
    exact absurd h (by simp)
  | cons n ns =>
    cases hmt : d.metadataTimes with
    | nil =>
      rw [convert_geojson_no_meta htn hmt] at h
      exact absurd h (by simp)
    | cons mt mts =>
      cases mt with
      | none =>
        have herr : convert_gpx_to_geojson d a = .error .timestampParse := by
          simp [convert_gpx_to_geojson, htn, hmt, exceptBind_ok, exceptBind_error]
        rw [herr] at h
        exact absurd h (by simp)
      | some t =>
        rw [convert_geojson_eq htn hmt] at h
        cases hg : geoLoop d.points with
        | error e =>
          rw [hg, exceptMap_error] at h
          exact absurd h (by simp)
        | ok cs =>
          rw [hg, exceptMap_ok] at h
          have hj := Except.ok.inj h
          subst hj
          exact geoLoop_forall₂ hg

/-- C3 (witness): the coordinate property at a one-point document with
lat 1 and lon 2: the single coordinate pair is `[2, 1]`, longitude first. -/
theorem c3_geojson_coords_witness :
    convert_gpx_to_geojson c3wDoc [] = .ok c3wOut ∧
    List.Forall₂ (fun p c => ∃ la lo, p.lat = some la ∧ p.lon = some lo ∧
      c = Value.vArr [.vNum lo, .vNum la]) c3wDoc.points (geoCoords c3wOut) :=
  ⟨rfl, @c3_geojson_coords c3wDoc [] c3wOut rfl⟩

/-- C7 (counterexample): the claim derives non-negativity from
monotonically increasing point times alone; on `c7Doc` the point times are
strictly increasing, yet the metadata start time lies after both points
and the elapsed values are `-100` and `-70`, which are negative. -/
theorem c7_counterexample :
    pointTimes c7Doc = [0, 30000000] ∧
    List.Chain' (· < ·) (pointTimes c7Doc) ∧
    convert_gpx_to_rkjson c7Doc [] = .ok c7Out ∧
    pathTimestamps c7Out = [-100, -70] ∧
    ¬ (0 ≤ (-100 : ℤ)) := by
  refine ⟨rfl, ?_, rfl, rfl, by decide⟩
  rw [show pointTimes c7Doc = [0, 30000000] from rfl]
  norm_num [List.chain'_cons]

/-- C7 (amended): with strictly increasing point times the elapsed values
of a converted document are monotonically non-decreasing; they are moreover
all non-negative provided the resolved start time is at or before every
point time (which increasing point times alone do not guarantee). -/
theorem c7_elapsed_monotone {d : GpxDoc} {a j : Dict} {s : ℤ}
    (hs : resolveStartTime d = .ok s)
    (h : convert_gpx_to_rkjson d a = .ok j)
    (hmono : List.Chain' (· < ·) (pointTimes d)) :
    List.Chain' (· ≤ ·) (pathTimestamps j) ∧
    ((∀ t ∈ pointTimes d, s ≤ t) → ∀ x ∈ pathTimestamps j, 0 ≤ x) := by
  rw [pathTimestamps_convert hs h]
  constructor
  · exact List.chain'_map_of_chain' _
      (fun x y hxy => tdiv_le_tdiv_of_le (by norm_num) (by omega)) hmono
  · intro hpos x hx
    obtain ⟨t, ht, hxt⟩ := List.mem_map.1 hx
    subst hxt
    have := hpos t ht
    exact Int.tdiv_nonneg (by omega) (by norm_num)

/-- C7 (witness): the amended property at a document whose metadata time
precedes both points: elapsed values `[0, 30]`, non-decreasing and
non-negative. -/
theorem c7_elapsed_monotone_witness :
    (resolveStartTime c7wDoc = .ok 0 ∧
     convert_gpx_to_rkjson c7wDoc [] = .ok c7wOut ∧
     List.Chain' (· < ·) (pointTimes c7wDoc) ∧
     (∀ t ∈ pointTimes c7wDoc, (0 : ℤ) ≤ t)) ∧
    List.Chain' (· ≤ ·) (pathTimestamps c7wOut) ∧
    (∀ x ∈ pathTimestamps c7wOut, (0 : ℤ) ≤ x) := by
  have hchain : List.Chain' (· < ·) (pointTimes c7wDoc) := by
    rw [show pointTimes c7wDoc = [0, 30000000] from rfl]
    norm_num [List.chain'_cons]
  have hpos : ∀ t ∈ pointTimes c7wDoc, (0 : ℤ) ≤ t := by
    rw [show pointTimes c7wDoc = [0, 30000000] from rfl]
    intro t ht
    simp at ht
    rcases ht with h | h <;> omega
  have T := @c7_elapsed_monotone c7wDoc [] c7wOut 0 rfl rfl hchain
  exact ⟨⟨rfl, rfl, hchain, hpos⟩, T.1, T.2 hpos⟩

/-- C8 (counterexample): the claim equates per-point re-application of the
enrichment with a single post-loop application.  On a zero-point document
the per-point loop applies enrichment zero times and the record keeps no
default keys, while the post-loop variant enriches once, so the two outputs
differ. -/
theorem c8_counterexample :
    convert_gpx_to_rkjson c8Doc [] = .ok (jdInit 0) ∧
    convert_gpx_to_rkjson_postloop c8Doc [] = .ok c8PostOut ∧
    dget KEY_TYPE (jdInit 0) = none ∧
    dget KEY_TYPE c8PostOut = some (.vStr "Running") ∧
    convert_gpx_to_rkjson c8Doc [] ≠ convert_gpx_to_rkjson_postloop c8Doc [] := by
  refine ⟨rfl, rfl, rfl, rfl, ?_⟩
  intro heq
  have h1 : (Except.ok (jdInit 0) : Except GpxError Dict) = .ok c8PostOut := heq
  have h2 := congrArg (dget KEY_TYPE) (Except.ok.inj h1)
  simp [jdInit, c8PostOut, dget, KEY_TYPE, KEY_PATH, KEY_STARTTIME] at h2

/-- C8 (amended): `enrich_data` is idempotent — once a call has succeeded,
applying it again to the result is the identity — and on every document
with at least one track point the per-point re-application inside the
conversion loop produces exactly the record a single post-loop application
would (with zero points the loop applies no enrichment at all). -/
theorem c8_enrich_idempotent :
    (∀ jdata additional_data data_type j,
      enrich_data jdata additional_data data_type = .ok j →
      enrich_data j additional_data data_type = .ok j) ∧
    (∀ (d : GpxDoc) (a : Dict), d.points ≠ [] →
      convert_gpx_to_rkjson d a = convert_gpx_to_rkjson_postloop d a) := by
  refine ⟨fun _ _ _ _ h => enrich_data_idem h, ?_⟩
  intro d a hne
  have hpost : convert_gpx_to_rkjson_postloop d a =
      (resolveStartTime d) >>= fun s =>
        (rkLoopNoEnrich s (jdInit s) d.points) >>= fun jd =>
          enrich_data jd a TYPE_RK := rfl
  cases hres : resolveStartTime d with
  | error e =>
    rw [convert_rkjson_of_resolve_error hres, hpost, hres, exceptBind_error]
  | ok s =>
    cases hp : d.points with
    | nil => exact absurd hp hne
    | cons p ps =>
      rw [convert_rkjson_of_cons hres hp, hpost, hres, exceptBind_ok, hp,
        rkLoopNoEnrich_eq s (dget_path_jdInit s)]
      cases hps : buildPoints s (p :: ps) with
      | error e => rw [exceptMap_error, exceptMap_error, exceptBind_error]
      | ok pps =>
        rw [exceptMap_ok, exceptMap_ok, exceptBind_ok, enrich_data_rk,
          enrichRK_dset_comm (by rfl : dmem KEY_PATH (jdInit s) = true)]
        simp

/-- C8 (witness): idempotence at a concrete enrichment call, and the
loop/post-loop agreement at a one-point document. -/
theorem c8_enrich_idempotent_witness :
    enrich_data RK_DEFAULTS [] TYPE_RK = .ok RK_DEFAULTS ∧
    convert_gpx_to_rkjson c8wDoc [] = convert_gpx_to_rkjson_postloop c8wDoc [] :=
  ⟨c8_enrich_idempotent.1 [] [] TYPE_RK RK_DEFAULTS rfl,
   c8_enrich_idempotent.2 c8wDoc [] (by simp [c8wDoc])⟩

/-- C9 (confirmed): the round-trip scenario — metadata time `T0`, two
points at `T0` and `T0 + 30s` with the given coordinates and elevations —
produces exactly the two-element path with elapsed values 0 and 30, in
order. -/
theorem c9_roundtrip (T0 : ℤ) :
    convert_gpx_to_rkjson (c9Doc T0) [] = .ok (c9Out T0) ∧
    getPath (c9Out T0) = [.vObj c9Point1, .vObj c9Point2] := by
  refine ⟨?_, rfl⟩
  have e1 : Int.tdiv (T0 - T0) 1000000 = 0 := by
    rw [sub_self]
    rfl
  have e2 : Int.tdiv (T0 + 30000000 - T0) 1000000 = 30 := by
    rw [show T0 + 30000000 - T0 = 30000000 by ring]
    decide
  have hb1 : buildPoint T0 ⟨some 45, some (-122), [some 10], [some T0]⟩ =
      .ok c9Point1 := by
    simp only [buildPoint, reqAttr, exceptBind_ok, eleLoop, timeLoop, e1]
    rfl
  have hb2 : buildPoint T0
      ⟨some 45.001, some (-122.001), [some 12], [some (T0 + 30000000)]⟩ =
      .ok c9Point2 := by
    simp only [buildPoint, reqAttr, exceptBind_ok, eleLoop, timeLoop, e2]
    rfl
  have hres : resolveStartTime (c9Doc T0) = .ok T0 := rfl
  rw [convert_rkjson_of_cons hres rfl, buildPoints_cons, hb1, exceptBind_ok,
    buildPoints_cons, hb2, exceptBind_ok]
  rfl

/-- C10 (confirmed): in the heap-explicit model, which threads the caller's
`additional_data` dict through every mutation the source performs,
`enrich_data` and the whole RunKeeper conversion return `additional_data`
exactly as it came in, next to the same record the plain model produces:
the override mapping is only read, never written. -/
theorem c10_frame :
    (∀ jdata additional_data data_type,
      enrich_data_heap jdata additional_data data_type =
        Except.map (fun j => (j, additional_data))
          (enrich_data jdata additional_data data_type)) ∧
    (∀ (d : GpxDoc) (additional_data : Dict),
      convert_gpx_to_rkjson_heap d additional_data =
        Except.map (fun j => (j, additional_data))
          (convert_gpx_to_rkjson d additional_data)) := by
  refine ⟨enrich_data_heap_eq, ?_⟩
  intro d a
  rw [convert_rkjson_heap_def, convert_rkjson_def]
  cases hres : resolveStartTime d with
  | error e => rw [exceptBind_error, exceptBind_error, exceptMap_error]
  | ok s => rw [exceptBind_ok, exceptBind_ok, rkLoopHeap_eq]

end HealthTools
